import Mathlib

/-!
Verification development for the mojo.az user scraper
(`mojo_scraper.py`, `phone_validator.py`).

The Python source is shallowly embedded: pure functions become Lean
functions, the stateful scraping loop becomes explicit state passing,
the checkpoint artifact is modelled at the JSON-value level (Python's
`json.dump`/`json.load` are the runtime's faithful bridge between
values and text), and HTML pages are modelled as DOM trees in
first-child/next-sibling form (BeautifulSoup's parse of the page).
-/

namespace Mojo

/-! ## Phone validator (`phone_validator.py`) -/

/-- ASCII decimal digit, the model of `re`'s `\d` character class. -/
def isPyDigit (c : Char) : Bool := '0' ≤ c && c ≤ '9'

/-- `PhoneValidator.clean_phone`: `re.sub(r'\D', '', phone_raw)` —
remove every non-digit character. -/
def clean_phone (phone_raw : String) : String :=
  String.mk (phone_raw.data.filter isPyDigit)

/-- `PhoneValidator.VALID_PREFIXES`. -/
def VALID_PREFIXES : List String := ["10", "50", "51", "55", "60", "70", "77", "99"]

/-- `PhoneValidator.INVALID_THIRD_DIGITS` (the source stores the two
one-character strings `'0'`, `'1'`; modelled as characters). -/
def INVALID_THIRD_DIGITS : List Char := ['0', '1']

/-- `PhoneValidator.validate_phone`, translated clause by clause:
clean, early-reject the empty string, take the last 9 digits
(`cleaned[-9:]`), require length 9, require an allow-listed two-digit
prefix, reject third digit `0`/`1`, else return the 9-digit string. -/
def validate_phone (phone_number : String) : Option String :=
  let cleaned := clean_phone phone_number
  if cleaned.data = [] then none
  else
    let phone_9digit := String.mk (cleaned.data.drop (cleaned.data.length - 9))
    if phone_9digit.data.length ≠ 9 then none
    else if ¬ (VALID_PREFIXES.contains (String.mk (phone_9digit.data.take 2))) then none
    else
      match phone_9digit.data.get? 2 with
      | some c => if INVALID_THIRD_DIGITS.contains c then none else some phone_9digit
      | none => none

/-- `PhoneValidator.is_valid`. -/
def is_valid (phone_number : String) : Bool :=
  (validate_phone phone_number).isSome

/-- The validation algorithm exactly as the specification words it:
delete every non-digit character, reject if fewer than 9 digits
remain, take the last 9 digits, reject unless the first two digits
are in the allow-list, reject if the third digit is 0 or 1, otherwise
return the 9-digit string unchanged. -/
def validate_phone_spec (s : String) : Option String :=
  let ds := s.data.filter isPyDigit
  if ds.length < 9 then none
  else
    let last9 := ds.drop (ds.length - 9)
    if ¬ (VALID_PREFIXES.contains (String.mk (last9.take 2))) then none
    else
      match last9.get? 2 with
      | some c => if c = '0' ∨ c = '1' then none else some (String.mk last9)
      | none => none

/-! ## DOM model for fetched pages

A fetched page body, as parsed by BeautifulSoup, is modelled as a DOM
tree in first-child/next-sibling form: `elemNode tag classes child sib`
is an element whose `class` attribute holds the whitespace-split token
list `classes`, whose first child is `child` and whose next sibling is
`sib`; `textNode s sib` is a text node.  `nilNode` ends a sibling
chain. -/
inductive Dom where
  | nilNode : Dom
  | textNode (s : String) (sib : Dom) : Dom
  | elemNode (tag : String) (classes : List String) (child : Dom) (sib : Dom) : Dom
deriving DecidableEq

/-- An element detached from its sibling chain (the value BeautifulSoup
hands back from `find`/`find_parent`): its tag, class tokens, and the
chain of its children. -/
structure Node where
  tag : String
  classes : List String
  child : Dom
deriving DecidableEq

/-- Python `str.strip()` whitespace (ASCII). -/
def isPySpace (c : Char) : Bool :=
  c = ' ' || c = '\t' || c = '\n' || c = '\r' || c = '\x0b' || c = '\x0c'

/-- Python `str.strip()`. -/
def pyStrip (s : String) : String :=
  String.mk (((s.data.dropWhile isPySpace).reverse.dropWhile isPySpace).reverse)

/-- `get_text()` over a sibling chain: concatenation of all text
descendants in document order. -/
def domText : Dom → String
  | .nilNode => ""
  | .textNode s sib => s ++ domText sib
  | .elemNode _ _ child sib => domText child ++ domText sib

/-- `get_text(strip=True)` over a sibling chain: each text descendant is
stripped, the (possibly empty) pieces are concatenated. -/
def domTextStrip : Dom → String
  | .nilNode => ""
  | .textNode s sib => pyStrip s ++ domTextStrip sib
  | .elemNode _ _ child sib => domTextStrip child ++ domTextStrip sib

/-- `name_tag.get_text(strip=True)` for a found element. -/
def nodeTextStrip (nd : Node) : String := domTextStrip nd.child

/-- `user_div.get_text()` for a found element. -/
def nodeText (nd : Node) : String := domText nd.child

/-- `soup.find('h2', {'class': 'pb-0'})`, together with the ancestor
chain (nearest first) of the element found.  The traversal is
document order (pre-order): the element itself, then its children,
then its following siblings. -/
def findNameTag : Dom → List Node → Option (Node × List Node)
  | .nilNode, _ => none
  | .textNode _ sib, anc => findNameTag sib anc
  | .elemNode t cls child sib, anc =>
    if t = "h2" && cls.contains "pb-0" then
      some (⟨t, cls, child⟩, anc)
    else
      match findNameTag child (⟨t, cls, child⟩ :: anc) with
      | some r => some r
      | none => findNameTag sib anc

/-- The filter of `name_tag.find_parent('div', class_=lambda x: x and
'p-2' in x.split())`: a `div` whose class token list contains `p-2`. -/
def isUserDiv (nd : Node) : Bool :=
  nd.tag = "div" && nd.classes.contains "p-2"

/-! ## Regex searches used by `parse_user_data`

Each of the three `re.search` calls in the source is embedded as an
executable leftmost-match scanner with Python's backtracking order
(greedy `\s*` longest first, lazy `(.+?)` shortest first). -/

/-- One quantified element of the phone pattern
`\(?\d{3}\)?\s*\d{3}[-\s]?\d{2}[-\s]?\d{2}`: take exactly `n` digits. -/
def takeDigits : Nat → List Char → Option (List Char × List Char)
  | 0, cs => some ([], cs)
  | _ + 1, [] => none
  | n + 1, c :: cs =>
    if isPyDigit c then
      match takeDigits n cs with
      | some (ds, rest) => some (c :: ds, rest)
      | none => none
    else none

/-- Match the phone pattern at the head of `cs`; return the matched
characters (`group(0)`).  Adjacent elements of the pattern have
disjoint character classes, so greedy matching needs no backtracking. -/
def matchPhoneAt (cs : List Char) : Option (List Char) :=
  -- \(?
  let (p1, cs) := match cs with
    | '(' :: rest => (['('], rest)
    | _ => ([], cs)
  -- \d{3}
  match takeDigits 3 cs with
  | none => none
  | some (d1, cs) =>
    -- \)?
    let (p2, cs) := match cs with
      | ')' :: rest => ([')'], rest)
      | _ => ([], cs)
    -- \s*
    let ws := cs.takeWhile isPySpace
    let cs := cs.dropWhile isPySpace
    -- \d{3}
    match takeDigits 3 cs with
    | none => none
    | some (d2, cs) =>
      -- [-\s]?
      let (p3, cs) := match cs with
        | c :: rest => if c = '-' || isPySpace c then ([c], rest) else ([], cs)
        | [] => ([], cs)
      -- \d{2}
      match takeDigits 2 cs with
      | none => none
      | some (d3, cs) =>
        -- [-\s]?
        let (p4, cs) := match cs with
          | c :: rest => if c = '-' || isPySpace c then ([c], rest) else ([], cs)
          | [] => ([], cs)
        -- \d{2}
        match takeDigits 2 cs with
        | none => none
        | some (d4, _) =>
          some (p1 ++ d1 ++ p2 ++ ws ++ d2 ++ p3 ++ d3 ++ p4 ++ d4)

/-- `re.search` for the phone pattern: try each start position left to
right. -/
def reSearchPhone : List Char → Option (List Char)
  | [] => none
  | c :: rest =>
    match matchPhoneAt (c :: rest) with
    | some m => some m
    | none => reSearchPhone rest

/-- Match a literal at the head of the text, returning the rest. -/
def matchLit : List Char → List Char → Option (List Char)
  | [], cs => some cs
  | _ :: _, [] => none
  | l :: ls, c :: cs => if l = c then matchLit ls cs else none

/-- Does the terminator `(?:\n|<br)` match at the head of `cs`? -/
def dateTermAt (cs : List Char) : Bool :=
  match cs with
  | '\n' :: _ => true
  | '<' :: 'b' :: 'r' :: _ => true
  | _ => false

/-- The lazy group `(.+?)(?:\n|<br)` (with `re.DOTALL`): shortest
nonempty capture followed by the terminator. -/
def lazyCapture (acc : List Char) : List Char → Option (List Char)
  | [] => none
  | c :: rest =>
    if dateTermAt rest then some (acc ++ [c]) else lazyCapture (acc ++ [c]) rest

/-- Backtracking over greedy `\s*`: `wsRev` is the reversed whitespace
consumed so far (longest first); on failure one whitespace character is
given back to the lazy group. -/
def tryWsLevels (wsRev : List Char) (rest : List Char) : Option (List Char) :=
  match lazyCapture [] rest with
  | some cap => some cap
  | none =>
    match wsRev with
    | [] => none
    | w :: ws => tryWsLevels ws (w :: rest)

/-- `re.search(label + r'\s*(.+?)(?:\n|<br)', text, re.DOTALL)`:
leftmost start position wins; the returned value is `group(1)`. -/
def labelSearch (label : List Char) : List Char → Option (List Char)
  | [] => none
  | c :: rest =>
    match
      (match matchLit label (c :: rest) with
       | some after =>
         tryWsLevels (after.takeWhile isPySpace).reverse (after.dropWhile isPySpace)
       | none => none)
    with
    | some cap => some cap
    | none => labelSearch label rest

/-- `re.search(r'Elan sayı:\s*(\d+)', text)`: leftmost literal match
followed by whitespace and at least one digit; returns the digit run. -/
def listingSearch (label : List Char) : List Char → Option (List Char)
  | [] => none
  | c :: rest =>
    match
      (match matchLit label (c :: rest) with
       | some after =>
         let ds := (after.dropWhile isPySpace).takeWhile isPyDigit
         if ds = [] then none else some ds
       | none => none)
    with
    | some ds => some ds
    | none => listingSearch label rest

/-- Python `int` on a (nonempty) digit string. -/
def digitsToNat (ds : List Char) : Nat :=
  ds.foldl (fun acc c => acc * 10 + (c.toNat - '0'.toNat)) 0

/-! ## Scraper data model (`mojo_scraper.py`) -/

/-- The dictionary built by `parse_user_data` (one scraped user). -/
structure Record where
  user_id : Nat
  name : String
  phone : String
  registration_date : Option String
  last_seen_date : Option String
  listing_count : Option Nat
  url : String
  scraped_at : String
deriving DecidableEq

/-- `self.stats` (`__init__`, lines 54-62).  `last_processed_id` is an
integer because it is initialised to `start_id - 1`. -/
structure Stats where
  total_processed : Nat
  successful : Nat
  failed : Nat
  invalid_phone : Nat
  no_phone : Nat
  valid_users : Nat
  last_processed_id : Int
deriving DecidableEq

/-- The statistics dictionary as initialised in `__init__`. -/
def initStats (start_id : Nat) : Stats :=
  { total_processed := 0
    successful := 0
    failed := 0
    invalid_phone := 0
    no_phone := 0
    valid_users := 0
    last_processed_id := (start_id : Int) - 1 }

/-- Classification of one network fetch, as `fetch_user` distinguishes
them: an HTTP 200 response carrying a parsed page body, a non-200
response, `asyncio.TimeoutError`, or any other exception. -/
inductive FetchOutcome where
  | success (body : Dom) : FetchOutcome
  | httpError (status : Nat) : FetchOutcome
  | timeout : FetchOutcome
  | netError : FetchOutcome
deriving DecidableEq

/-- `self.base_url.format(user_id)`. -/
def base_url_format (user_id : Nat) : String :=
  "https://mojo.az/az/users/" ++ toString user_id

/-- `MojoScraper.parse_user_data` (lines 118-207), translated clause by
clause over the DOM model.  `now` abstracts `datetime.now().isoformat()`.
The function returns the parsed record (or `none`) together with the
updated statistics: the source increments `no_phone` / `invalid_phone`
in place. -/
def parse_user_data (html : Dom) (user_id : Nat) (now : String) (s : Stats) :
    Option Record × Stats :=
  match findNameTag html [] with
  | none => (none, s)
  | some (name_tag, ancestors) =>
    let name := nodeTextStrip name_tag
    if name = "" then (none, s)
    else
      match ancestors.find? isUserDiv with
      | none => (none, s)
      | some user_div =>
        let text_content := nodeText user_div
        match reSearchPhone text_content.data with
        | none => (none, { s with no_phone := s.no_phone + 1 })
        | some phone_raw =>
          match validate_phone (String.mk phone_raw) with
          | none => (none, { s with invalid_phone := s.invalid_phone + 1 })
          | some validated_phone =>
            let registration_date :=
              (labelSearch "Qeydiyyat tarixi:".data text_content.data).map
                (fun g => pyStrip (String.mk g))
            let last_seen_date :=
              (labelSearch "Saytda olduğu tarix:".data text_content.data).map
                (fun g => pyStrip (String.mk g))
            let listing_count :=
              (listingSearch "Elan sayı:".data text_content.data).map digitsToNat
            (some { user_id := user_id
                    name := name
                    phone := validated_phone
                    registration_date := registration_date
                    last_seen_date := last_seen_date
                    listing_count := listing_count
                    url := base_url_format user_id
                    scraped_at := now }, s)

/-- `MojoScraper.fetch_user` (lines 209-255).  The network is abstracted
by an oracle mapping each user id to its `FetchOutcome`.  Note that
`total_processed` is incremented only once a response object exists
(line 224); on timeout or transport error only `failed` moves. -/
def fetch_user (oracle : Nat → FetchOutcome) (now : String) (user_id : Nat)
    (s : Stats) : Option Record × Stats :=
  match oracle user_id with
  | .success body =>
    let s1 := { s with total_processed := s.total_processed + 1 }
    match parse_user_data body user_id now s1 with
    | (some user_data, s2) =>
      (some user_data,
       { s2 with successful := s2.successful + 1
                 valid_users := s2.valid_users + 1
                 last_processed_id := (user_id : Int) })
    | (none, s2) =>
      (none, { s2 with failed := s2.failed + 1
                       last_processed_id := (user_id : Int) })
  | .httpError _ =>
    let s1 := { s with total_processed := s.total_processed + 1 }
    (none, { s1 with failed := s1.failed + 1
                     last_processed_id := (user_id : Int) })
  | .timeout =>
    (none, { s with failed := s.failed + 1
                    last_processed_id := (user_id : Int) })
  | .netError =>
    (none, { s with failed := s.failed + 1
                    last_processed_id := (user_id : Int) })

/-! ## Checkpoint store

The checkpoint artifact is modelled at the JSON-value level:
`json.dump` / `json.load` are the runtime's faithful bridge between
Python values and the file's text, so `save_checkpoint` produces a
`Json` value and `load_checkpoint` consumes one.  In Python the loaded
records are plain dictionaries; the embedding types them, so a decoder
failure corresponds to an artifact that was not produced by
`save_checkpoint`. -/
inductive Json where
  | null : Json
  | str (s : String) : Json
  | num (n : Int) : Json
  | arr (xs : List Json) : Json
  | obj (fields : List (String × Json)) : Json

/-- `dict.get(key, default)` on a JSON object. -/
def jsonGet (j : Json) (key : String) (dflt : Json) : Json :=
  match j with
  | .obj fields =>
    match fields.lookup key with
    | some v => v
    | none => dflt
  | _ => dflt

/-- One record dictionary, with the key order of `parse_user_data`. -/
def recordToJson (r : Record) : Json :=
  .obj [("user_id", .num r.user_id),
        ("name", .str r.name),
        ("phone", .str r.phone),
        ("registration_date", match r.registration_date with
          | some d => .str d
          | none => .null),
        ("last_seen_date", match r.last_seen_date with
          | some d => .str d
          | none => .null),
        ("listing_count", match r.listing_count with
          | some n => .num n
          | none => .null),
        ("url", .str r.url),
        ("scraped_at", .str r.scraped_at)]

/-- The stats dictionary, with the key order of `__init__`. -/
def statsToJson (s : Stats) : Json :=
  .obj [("total_processed", .num s.total_processed),
        ("successful", .num s.successful),
        ("failed", .num s.failed),
        ("invalid_phone", .num s.invalid_phone),
        ("no_phone", .num s.no_phone),
        ("valid_users", .num s.valid_users),
        ("last_processed_id", .num s.last_processed_id)]

/-- The checkpoint dictionary assembled by `save_checkpoint`
(lines 84-88): results, stats, timestamp. -/
def checkpointJson (results : List Record) (stats : Stats) (now : String) : Json :=
  .obj [("results", .arr (results.map recordToJson)),
        ("stats", statsToJson stats),
        ("timestamp", .str now)]

/-- Decode one record dictionary (inverse of `recordToJson`). -/
def decodeRecord (j : Json) : Option Record :=
  match jsonGet j "user_id" .null, jsonGet j "name" .null,
        jsonGet j "phone" .null, jsonGet j "url" .null,
        jsonGet j "scraped_at" .null with
  | .num uid, .str name, .str phone, .str url, .str scraped_at =>
    let reg := match jsonGet j "registration_date" .null with
      | .str d => some (some d)
      | .null => some none
      | _ => none
    let seen := match jsonGet j "last_seen_date" .null with
      | .str d => some (some d)
      | .null => some none
      | _ => none
    let cnt := match jsonGet j "listing_count" .null with
      | .num n => some (some n.toNat)
      | .null => some none
      | _ => none
    match reg, seen, cnt with
    | some reg, some seen, some cnt =>
      some { user_id := uid.toNat, name := name, phone := phone,
             registration_date := reg, last_seen_date := seen,
             listing_count := cnt, url := url, scraped_at := scraped_at }
    | _, _, _ => none
  | _, _, _, _, _ => none

/-- Decode the list under the `results` key. -/
def decodeRecords : List Json → Option (List Record)
  | [] => some []
  | j :: rest =>
    match decodeRecord j, decodeRecords rest with
    | some r, some rs => some (r :: rs)
    | _, _ => none

/-- Decode the stats dictionary (inverse of `statsToJson`). -/
def decodeStats (j : Json) : Option Stats :=
  match jsonGet j "total_processed" .null, jsonGet j "successful" .null,
        jsonGet j "failed" .null, jsonGet j "invalid_phone" .null,
        jsonGet j "no_phone" .null, jsonGet j "valid_users" .null,
        jsonGet j "last_processed_id" .null with
  | .num tp, .num su, .num fa, .num ip, .num np, .num vu, .num lp =>
    some { total_processed := tp.toNat, successful := su.toNat,
           failed := fa.toNat, invalid_phone := ip.toNat,
           no_phone := np.toNat, valid_users := vu.toNat,
           last_processed_id := lp }
  | _, _, _, _, _, _, _ => none

/-- `MojoScraper.load_checkpoint` (lines 93-116) over an optional
artifact: if the checkpoint file is absent, or its content does not
decode (the `except` branch), the current results and stats are kept
and `False` is returned; otherwise `self.results` and `self.stats` are
replaced (`data.get('results', [])`, `data.get('stats', self.stats)`)
and `True` is returned. -/
def load_checkpoint (artifact : Option Json) (cur_results : List Record)
    (cur_stats : Stats) : List Record × Stats × Bool :=
  match artifact with
  | none => (cur_results, cur_stats, false)
  | some j =>
    let rs := match jsonGet j "results" (.arr []) with
      | .arr js => decodeRecords js
      | _ => none
    let st := decodeStats (jsonGet j "stats" (statsToJson cur_stats))
    match rs, st with
    | some rs, some st => (rs, st, true)
    | _, _ => (cur_results, cur_stats, false)

/-! ## Batch scheduler / orchestrator (`scrape_batch`, `scrape_all`)

The single-threaded asyncio run is modelled by explicit state passing.
Within a batch every per-id statistics update block runs atomically
(there is no await point inside it), so the only scheduling freedom is
the order in which the per-id blocks run; `scrape_batch` therefore
takes an explicit completion schedule.  `asyncio.gather(*tasks)`
returns the task results in task (submission) order regardless of
completion order, which the model reproduces by reassembling the
results in the order of `batch_ids`. -/

/-- Run the per-id pipelines in completion order `sched`, threading the
statistics and recording each finished task's returned value. -/
def runTasks (oracle : Nat → FetchOutcome) (now : String) :
    List Nat → Stats → List (Nat × Option Record) × Stats
  | [], s => ([], s)
  | uid :: rest, s =>
    let (r, s1) := fetch_user oracle now uid s
    let (done, s2) := runTasks oracle now rest s1
    ((uid, r) :: done, s2)

/-- `MojoScraper.scrape_batch` (lines 257-270): fan out one
`fetch_user` per id, gather the results in task order, and filter out
the `None`s. -/
def scrape_batch (oracle : Nat → FetchOutcome) (now : String)
    (batch_ids sched : List Nat) (s : Stats) : List Record × Stats :=
  let (done, s1) := runTasks oracle now sched s
  (batch_ids.filterMap (fun uid => ((done.lookup uid).getD none)), s1)

/-- `range(start, stop, step)` for a positive step, with enough fuel to
enumerate every element (for `step = 0` Python raises `ValueError`;
the model returns `[]`). -/
def pyRangeAux (step : Nat) : Nat → Nat → Nat → List Nat
  | 0, _, _ => []
  | fuel + 1, start, stop =>
    if start < stop then start :: pyRangeAux step fuel (start + step) stop else []

/-- Python `range(start, stop, step)`. -/
def pyRange (start stop step : Nat) : List Nat :=
  pyRangeAux step (stop - start) start stop

/-- The ids of one batch: `list(range(batch_start, batch_end + 1))`
where `batch_end = min(batch_start + batch_size - 1, end_id)`
(lines 303-304). -/
def batchIds (batch_start batch_size end_id : Nat) : List Nat :=
  List.range' batch_start (min (batch_start + batch_size - 1) end_id + 1 - batch_start)

/-- `resume_id = last_processed_id + 1`; `actual_start` is `resume_id`
when it exceeds `start_id`, else `start_id` (lines 284-289). -/
def resumeStart (start_id : Nat) (stats : Stats) : Nat :=
  if stats.last_processed_id + 1 > (start_id : Int) then
    (stats.last_processed_id + 1).toNat
  else start_id

/-- The mutable state of one `scrape_all` run: accumulated results and
stats, the checkpoints saved so far (in order), the ids attempted so
far (in dispatch order), and `last_save_count`. -/
structure RunState where
  results : List Record
  stats : Stats
  saves : List Json
  attempted : List Nat
  last_save_count : Nat

/-- `MojoScraper.save_checkpoint` (lines 82-91): append the checkpoint
artifact for the current results and stats. -/
def save_checkpoint (now : String) (st : RunState) : RunState :=
  { st with saves := st.saves ++ [checkpointJson st.results st.stats now] }

/-- An externally injected event, observed at a batch boundary (the
await points between batches): `interruptAfter k` is a
`KeyboardInterrupt` after batch index `k` settles, `errorAfter k` an
unrecoverable error there.  `noSignal` is an undisturbed run. -/
inductive Signal where
  | noSignal : Signal
  | interruptAfter (k : Nat) : Signal
  | errorAfter (k : Nat) : Signal
deriving DecidableEq

/-- The outcome of `scrape_all`: the final state, and whether an
exception propagated to the caller (`raise` in the generic `except`
branch; `KeyboardInterrupt` is swallowed). -/
structure RunOutcome where
  final : RunState
  raised : Bool

/-- The `for batch_start in range(actual_start, end_id + 1, batch_size)`
loop of `scrape_all` (lines 302-323) together with its surrounding
`try`/`except` handlers: process each batch (with in-dispatch-order
completion), do the threshold save, observe the signal, and on normal
exhaustion perform the unconditional final save. -/
def scrapeLoop (oracle : Nat → FetchOutcome) (now : String)
    (end_id batch_size save_every : Nat) (sig : Signal) :
    List Nat → Nat → RunState → RunOutcome
  | [], _, st => { final := save_checkpoint now st, raised := false }
  | bs :: rest, i, st =>
    let ids := batchIds bs batch_size end_id
    let (batch_results, stats1) := scrape_batch oracle now ids ids st.stats
    let st1 := { st with results := st.results ++ batch_results
                         stats := stats1
                         attempted := st.attempted ++ ids }
    let st2 :=
      if (st1.stats.total_processed : Int) - (st1.last_save_count : Int)
          ≥ (save_every : Int) then
        { save_checkpoint now st1 with last_save_count := st1.stats.total_processed }
      else st1
    match sig with
    | .interruptAfter k =>
      if k = i then { final := save_checkpoint now st2, raised := false }
      else scrapeLoop oracle now end_id batch_size save_every sig rest (i + 1) st2
    | .errorAfter k =>
      if k = i then { final := save_checkpoint now st2, raised := true }
      else scrapeLoop oracle now end_id batch_size save_every sig rest (i + 1) st2
    | .noSignal =>
      scrapeLoop oracle now end_id batch_size save_every sig rest (i + 1) st2

/-- `MojoScraper.scrape_all` (lines 272-346): load the checkpoint if
present, compute the resume point, and process the remaining id range
in batches with auto-save checkpoints. -/
def scrape_all (oracle : Nat → FetchOutcome) (now : String)
    (start_id end_id batch_size save_every : Nat)
    (artifact : Option Json) (sig : Signal) : RunOutcome :=
  let (results0, stats0, _loaded) := load_checkpoint artifact [] (initStats start_id)
  let actual_start := resumeStart start_id stats0
  let starts := pyRange actual_start (end_id + 1) batch_size
  let st : RunState :=
    { results := results0, stats := stats0, saves := [], attempted := []
      last_save_count := stats0.total_processed }
  scrapeLoop oracle now end_id batch_size save_every sig starts 0 st

/-! ## Crash model of the checkpoint write

`save_checkpoint` writes with `open(self.checkpoint_file, 'w')`
followed by `json.dump(...)` (lines 89-90): opening with mode `'w'`
truncates the file in place before any byte of the new snapshot is
written, and `json.dump` then streams the serialized text.  A process
crash can therefore expose the file in any of the intermediate states
below.  An empty file and a proper prefix of a JSON document are both
rejected by `json.load` (every checkpoint document is a nonempty
`{...}` object, no proper prefix of which is valid JSON). -/
inductive FileState where
  | absent : FileState
  | emptyFile : FileState
  | truncDoc (j : Json) : FileState
  | fullDoc (j : Json) : FileState

/-- `json.load` on a crashed-or-complete checkpoint file: only a
completely written document parses. -/
def parseFile : FileState → Option Json
  | .fullDoc j => some j
  | _ => none

/-- The file states passed through while `save_checkpoint` writes the
snapshot `data`: truncated-to-empty, partly written, fully written.
A crash at any point leaves the file in one of these states (before
the `open` the file still holds its previous state). -/
def saveFileStates (data : Json) : List FileState :=
  [.emptyFile, .truncDoc data, .fullDoc data]

/-! ## Concurrency limiter (`asyncio.Semaphore`)

`__init__` creates `asyncio.Semaphore(max_concurrent)` (line 49) and
`fetch_user` executes its whole network request inside
`async with self.semaphore` (line 219).  The model: each `fetch_user`
invocation is a task that is `pending` until it acquires a permit,
`inFlight` while it holds the permit and its request is outstanding,
and `finished` after it releases the permit.  A small-step relation
over such states captures every interleaving the event loop can
produce; `acquire` only proceeds when a permit is available, which is
exactly `asyncio.Semaphore`'s contract. -/
inductive TaskPhase where
  | pending : TaskPhase
  | inFlight : TaskPhase
  | finished : TaskPhase
deriving DecidableEq

/-- Semaphore value plus the phase of every fetch task. -/
structure SemState where
  avail : Nat
  tasks : List TaskPhase
deriving DecidableEq

/-- One scheduler event: task `i` acquires the semaphore and issues its
request, or task `i`'s request completes and the permit is released. -/
inductive SemStep where
  | acquire (i : Nat) : SemStep
  | release (i : Nat) : SemStep
deriving DecidableEq

/-- Apply one event; `none` if the event is not enabled (in particular
`acquire` suspends while no permit is available). -/
def applySemStep (st : SemState) : SemStep → Option SemState
  | .acquire i =>
    match st.tasks.get? i with
    | some .pending =>
      if 0 < st.avail then
        some { avail := st.avail - 1, tasks := st.tasks.set i .inFlight }
      else none
    | _ => none
  | .release i =>
    match st.tasks.get? i with
    | some .inFlight =>
      some { avail := st.avail + 1, tasks := st.tasks.set i .finished }
    | _ => none

/-- Run a sequence of scheduler events. -/
def runSemSteps : SemState → List SemStep → Option SemState
  | st, [] => some st
  | st, e :: es =>
    match applySemStep st e with
    | some st1 => runSemSteps st1 es
    | none => none

/-- The initial state of a batch of `n` fetch tasks under a limiter of
`max_concurrent` permits. -/
def initSemState (max_concurrent n : Nat) : SemState :=
  { avail := max_concurrent, tasks := List.replicate n .pending }

/-- The number of fetches outstanding at an instant. -/
def inFlightCount (st : SemState) : Nat :=
  st.tasks.countP (· == TaskPhase.inFlight)

/-! ## Auxiliary definitions used by the statements -/

/-- Does one of the fetch outcomes deliver an HTTP response object
(of any status)?  `fetch_user` increments `total_processed` exactly on
these paths (line 224 sits inside the `async with ... as response`
block). -/
def isHttpResponse : FetchOutcome → Bool
  | .success _ => true
  | .httpError _ => true
  | .timeout => false
  | .netError => false

/-- Whether a signal injected at batch index `k` makes the run re-raise:
only an unrecoverable error that actually fires (its index falls among
the `n` batches dispatched from index `i`) propagates;
`KeyboardInterrupt` never does. -/
def raisesIn (sig : Signal) (i n : Nat) : Bool :=
  match sig with
  | .errorAfter k => decide (i ≤ k ∧ k < i + n)
  | _ => false

/-- A mock page a real fetch could return: the name heading inside a
`p-2` content div, followed by a phone-shaped text. -/
def mockPage : Dom :=
  Dom.elemNode "div" ["p-2"]
    (Dom.elemNode "h2" ["pb-0"] (Dom.textNode "UserA" Dom.nilNode)
      (Dom.textNode " (050) 555 12 34" Dom.nilNode))
    Dom.nilNode

/-- The mock fetcher of the end-to-end scenario: a valid parseable page
for odd ids, HTTP 404 for even ids. -/
def c3oracle : Nat → FetchOutcome := fun uid =>
  if uid % 2 = 1 then .success mockPage else .httpError 404

/-- A page whose name heading has a nonempty name and whose enclosing
div lacks the `p-2` class, with a phone-shaped substring present. -/
def noUserDivPage : Dom :=
  Dom.elemNode "div" ["card"]
    (Dom.elemNode "h2" ["pb-0"] (Dom.textNode "UserA" Dom.nilNode)
      (Dom.textNode " (050) 555 12 34" Dom.nilNode))
    Dom.nilNode

/-! ## Validator lemmas -/

theorem validate_phone_eq_spec (s : String) :
    validate_phone s = validate_phone_spec s := by
  unfold validate_phone validate_phone_spec clean_phone
  simp only [String.data]
  set ds := s.data.filter isPyDigit with hds
  by_cases h9 : ds.length < 9
  · simp only [if_pos h9]
    rcases h0 : ds with - | ⟨c, tl⟩
    · simp
    · have hne : ds ≠ [] := by rw [h0]; simp
      rw [← h0]
      simp only [if_neg hne]
      have hlt : ds.length - 9 = 0 := by omega
      rw [hlt]
      simp only [List.drop_zero]
      have : ds.length ≠ 9 := by omega
      simp [this]
  · have hlen : (ds.drop (ds.length - 9)).length = 9 := by
      rw [List.length_drop]; omega
    have hne : ds ≠ [] := by
      intro h; rw [h] at h9; simp at h9
    simp only [if_neg hne, if_neg h9, hlen]
    simp only [ne_eq, not_true_eq_false, if_false, reduceIte]
    rcases hc : (ds.drop (ds.length - 9)).get? 2 with - | c
    · rfl
    · simp only []
      have : (INVALID_THIRD_DIGITS.contains c = true) ↔ (c = '0' ∨ c = '1') := by
        simp [INVALID_THIRD_DIGITS]
      by_cases hin : c = '0' ∨ c = '1'
      · rw [if_pos (this.mpr hin), if_pos hin]
      · rw [if_neg (fun h => hin (this.mp h)), if_neg hin]

/-! ## Checkpoint round-trip lemmas -/

theorem decodeRecord_recordToJson (r : Record) :
    decodeRecord (recordToJson r) = some r := by
  obtain ⟨uid, name, phone, reg, seen, cnt, url, sc⟩ := r
  cases reg <;> cases seen <;> cases cnt <;> rfl

theorem decodeRecords_map (rs : List Record) :
    decodeRecords (rs.map recordToJson) = some rs := by
  induction rs with
  | nil => rfl
  | cons r rest ih =>
    simp only [List.map_cons, decodeRecords, decodeRecord_recordToJson, ih]

theorem decodeStats_statsToJson (s : Stats) :
    decodeStats (statsToJson s) = some s := by
  obtain ⟨tp, su, fa, ip, np, vu, lp⟩ := s
  rfl

theorem load_checkpoint_save (recs : List Record) (st : Stats) (t : String)
    (cur_r : List Record) (cur_s : Stats) :
    load_checkpoint (some (checkpointJson recs st t)) cur_r cur_s = (recs, st, true) := by
  have h1 : jsonGet (checkpointJson recs st t) "results" (Json.arr [])
      = Json.arr (recs.map recordToJson) := rfl
  have h2 : jsonGet (checkpointJson recs st t) "stats" (statsToJson cur_s)
      = statsToJson st := rfl
  simp only [load_checkpoint, h1, h2, decodeRecords_map, decodeStats_statsToJson]

/-! ## Per-id pipeline lemmas -/

/-- The record returned by `parse_user_data` does not depend on the
statistics threaded through it (the statistics are only written to). -/
theorem parse_user_data_fst_irrel (html : Dom) (uid : Nat) (now : String)
    (s s' : Stats) :
    (parse_user_data html uid now s).1 = (parse_user_data html uid now s').1 := by
  unfold parse_user_data
  dsimp only
  repeat' split <;> try rfl

/-- `parse_user_data` touches only the `no_phone` / `invalid_phone`
counters. -/
theorem parse_user_data_stats_effect (html : Dom) (uid : Nat) (now : String)
    (s : Stats) :
    (parse_user_data html uid now s).2.total_processed = s.total_processed ∧
    (parse_user_data html uid now s).2.successful = s.successful ∧
    (parse_user_data html uid now s).2.failed = s.failed ∧
    (parse_user_data html uid now s).2.valid_users = s.valid_users ∧
    (parse_user_data html uid now s).2.last_processed_id = s.last_processed_id := by
  unfold parse_user_data
  dsimp only
  repeat' split <;> try exact ⟨rfl, rfl, rfl, rfl, rfl⟩

/-- A record produced by `parse_user_data` carries the id it was asked
to parse. -/
theorem parse_user_data_user_id (html : Dom) (uid : Nat) (now : String)
    (s : Stats) (r : Record) (h : (parse_user_data html uid now s).1 = some r) :
    r.user_id = uid := by
  unfold parse_user_data at h
  dsimp only at h
  repeat' split at h <;> try simp_all
  rw [← h]

/-- The value returned by `fetch_user` does not depend on the incoming
statistics. -/
theorem fetch_user_fst_irrel (o : Nat → FetchOutcome) (now : String) (uid : Nat)
    (s s' : Stats) :
    (fetch_user o now uid s).1 = (fetch_user o now uid s').1 := by
  unfold fetch_user
  cases ho : o uid with
  | success body =>
    have h := parse_user_data_fst_irrel body uid now
      { s with total_processed := s.total_processed + 1 }
      { s' with total_processed := s'.total_processed + 1 }
    dsimp only
    repeat' split <;> simp_all
  | httpError st => rfl
  | timeout => rfl
  | netError => rfl

/-- A record returned by `fetch_user` carries the fetched id. -/
theorem fetch_user_user_id (o : Nat → FetchOutcome) (now : String) (uid : Nat)
    (s : Stats) (r : Record) (h : (fetch_user o now uid s).1 = some r) :
    r.user_id = uid := by
  unfold fetch_user at h
  cases ho : o uid with
  | success body =>
    rw [ho] at h
    dsimp only at h
    cases h1 : parse_user_data body uid now
        { s with total_processed := s.total_processed + 1 } with
    | mk r1 t1 =>
      rw [h1] at h
      cases r1 with
      | none => simp at h
      | some rr =>
        simp only [Option.some.injEq] at h
        subst h
        exact parse_user_data_user_id body uid now _ rr (by rw [h1])
  | httpError st => rw [ho] at h; simp at h
  | timeout => rw [ho] at h; simp at h
  | netError => rw [ho] at h; simp at h

/-! ## Batch lemmas -/

/-- The values gathered by `runTasks` are, in order, the per-id fetch
results, and (by statistics-irrelevance) can be read off against any
fixed reference statistics `s0`. -/
theorem runTasks_fst (o : Nat → FetchOutcome) (now : String) (s0 : Stats) :
    ∀ (sched : List Nat) (s : Stats),
      (runTasks o now sched s).1
        = sched.map (fun uid => (uid, (fetch_user o now uid s0).1)) := by
  intro sched
  induction sched with
  | nil => intro s; rfl
  | cons uid rest ih =>
    intro s
    show ((uid, (fetch_user o now uid s).1) ::
        (runTasks o now rest (fetch_user o now uid s).2).1) = _
    rw [ih, List.map_cons, fetch_user_fst_irrel o now uid s s0]

theorem lookup_map_self (g : Nat → Option Record) :
    ∀ (l : List Nat) (uid : Nat), uid ∈ l →
      (l.map (fun x => (x, g x))).lookup uid = some (g uid) := by
  intro l
  induction l with
  | nil => intro uid h; cases h
  | cons a t ih =>
    intro uid h
    by_cases ha : uid = a
    · subst ha
      simp [List.lookup]
    · have : uid ∈ t := by
        cases h with
        | head => exact absurd rfl ha
        | tail _ h' => exact h'
      simp only [List.map_cons, List.lookup]
      have hba : (uid == a) = false := by
        simp [ha]
      rw [hba]
      exact ih uid this

/-- `scrape_batch` with in-dispatch-order completion returns exactly
the per-id fetch results in dispatch order, `None`s removed. -/
theorem scrape_batch_fst (o : Nat → FetchOutcome) (now : String)
    (ids : List Nat) (s s0 : Stats) :
    (scrape_batch o now ids ids s).1
      = ids.filterMap (fun uid => (fetch_user o now uid s0).1) := by
  unfold scrape_batch
  dsimp only
  rw [runTasks_fst o now s0 ids s]
  apply List.filterMap_congr
  intro uid hm
  rw [lookup_map_self (fun u => (fetch_user o now u s0).1) ids uid hm]
  rfl

/-- The statistics coming out of `scrape_batch` are those threaded
through `runTasks`. -/
theorem scrape_batch_snd (o : Nat → FetchOutcome) (now : String)
    (ids sched : List Nat) (s : Stats) :
    (scrape_batch o now ids sched s).2 = (runTasks o now sched s).2 := by
  unfold scrape_batch
  dsimp only

/-- Whatever the completion schedule, every record `scrape_batch` hands
back for slot `uid` is a fetch result of `uid` itself. -/
theorem scrape_batch_slot (o : Nat → FetchOutcome) (now : String)
    (sched : List Nat) (s : Stats) (uid : Nat) (r : Record)
    (h : (((runTasks o now sched s).1.lookup uid).getD none) = some r) :
    r.user_id = uid := by
  rw [runTasks_fst o now s sched s] at h
  induction sched with
  | nil => simp [List.lookup] at h
  | cons a t ih =>
    simp only [List.map_cons, List.lookup] at h
    by_cases ha : uid = a
    · subst ha
      rw [beq_self_eq_true] at h
      simp only [Option.getD_some] at h
      exact fetch_user_user_id o now uid s r h
    · have hba : (uid == a) = false := by simp [ha]
      rw [hba] at h
      exact ih h

/-- Removing `None`s and projecting ids yields a sublist of the slot
ids, for any per-slot function that returns records carrying their own
slot id. -/
theorem filterMap_user_id_sublist (f : Nat → Option Record)
    (hf : ∀ uid r, f uid = some r → r.user_id = uid) :
    ∀ ids : List Nat, ((ids.filterMap f).map Record.user_id).Sublist ids := by
  intro ids
  induction ids with
  | nil => simp
  | cons a t ih =>
    cases hfa : f a with
    | none =>
      simp only [List.filterMap_cons, hfa]
      exact ih.cons a
    | some r =>
      simp only [List.filterMap_cons, hfa, List.map_cons, hf a r hfa]
      exact ih.cons₂ a

/-! ## Range partition lemmas -/

/-- Concatenating the batches dispatched from `a` reconstructs the
contiguous id range `a .. e`. -/
theorem pyRangeAux_bind_batchIds (bsz e : Nat) (hbs : 1 ≤ bsz) :
    ∀ (fuel a : Nat), e + 1 - a ≤ fuel →
      (pyRangeAux bsz fuel a (e + 1)).flatMap (fun bs => batchIds bs bsz e)
        = List.range' a (e + 1 - a) := by
  intro fuel
  induction fuel with
  | zero =>
    intro a ha
    have h0 : e + 1 - a = 0 := by omega
    simp [pyRangeAux, h0]
  | succ n ih =>
    intro a ha
    unfold pyRangeAux
    by_cases hlt : a < e + 1
    · rw [if_pos hlt]
      rw [List.flatMap_cons]
      rw [ih (a + bsz) (by omega)]
      unfold batchIds
      by_cases hin : a + bsz - 1 ≤ e
      · have hmin : min (a + bsz - 1) e = a + bsz - 1 := by omega
        rw [hmin]
        have h1 : a + bsz - 1 + 1 - a = bsz := by omega
        rw [h1]
        have h2 : e + 1 - (a + bsz) = (e + 1 - a) - bsz := by omega
        rw [h2]
        have := List.range'_append a bsz ((e + 1 - a) - bsz) 1
        simp only [one_mul, Nat.mul_one] at this
        rw [this]
        congr 1
        omega
      · have hmin : min (a + bsz - 1) e = e := by omega
        rw [hmin]
        have h2 : e + 1 - (a + bsz) = 0 := by omega
        rw [h2]
        simp
    · rw [if_neg hlt]
      have h0 : e + 1 - a = 0 := by omega
      simp [h0]

/-! ## Loop lemmas -/

/-- With no signal, the loop appends to the accumulated results the
filtered fetch results of every remaining batch, in dispatch order,
and appends every dispatched id to `attempted`. -/
theorem scrapeLoop_noSignal (o : Nat → FetchOutcome) (now : String)
    (e bsz sev : Nat) (s0 : Stats) :
    ∀ (starts : List Nat) (i : Nat) (st : RunState),
      (scrapeLoop o now e bsz sev .noSignal starts i st).final.results
        = st.results ++ (starts.flatMap (fun bs => batchIds bs bsz e)).filterMap
            (fun uid => (fetch_user o now uid s0).1) ∧
      (scrapeLoop o now e bsz sev .noSignal starts i st).final.attempted
        = st.attempted ++ starts.flatMap (fun bs => batchIds bs bsz e) := by
  intro starts
  induction starts with
  | nil =>
    intro i st
    simp [scrapeLoop, save_checkpoint]
  | cons bs rest ih =>
    intro i st
    unfold scrapeLoop
    dsimp only
    rw [scrape_batch_fst o now (batchIds bs bsz e) st.stats s0]
    constructor
    · rw [(ih (i + 1) _).1]
      split
      · simp only [save_checkpoint, List.flatMap_cons, List.filterMap_append,
          List.append_assoc]
      · simp only [List.flatMap_cons, List.filterMap_append, List.append_assoc]
    · rw [(ih (i + 1) _).2]
      split
      · simp only [save_checkpoint, List.flatMap_cons, List.append_assoc]
      · simp only [List.flatMap_cons, List.append_assoc]

/-- On every exit path of the loop the last checkpoint written is a
snapshot of the final results and statistics. -/
theorem scrapeLoop_last_save (o : Nat → FetchOutcome) (now : String)
    (e bsz sev : Nat) (sig : Signal) :
    ∀ (starts : List Nat) (i : Nat) (st : RunState),
      (scrapeLoop o now e bsz sev sig starts i st).final.saves.getLast?
        = some (checkpointJson
            (scrapeLoop o now e bsz sev sig starts i st).final.results
            (scrapeLoop o now e bsz sev sig starts i st).final.stats now) := by
  intro starts
  induction starts with
  | nil =>
    intro i st
    simp [scrapeLoop, save_checkpoint, List.getLast?_concat]
  | cons bs rest ih =>
    intro i st
    cases sig with
    | noSignal =>
      unfold scrapeLoop
      dsimp only
      exact ih (i + 1) _
    | interruptAfter k =>
      unfold scrapeLoop
      dsimp only
      by_cases hk : k = i
      · rw [if_pos hk]
        simp [save_checkpoint, List.getLast?_concat]
      · rw [if_neg hk]
        exact ih (i + 1) _
    | errorAfter k =>
      unfold scrapeLoop
      dsimp only
      by_cases hk : k = i
      · rw [if_pos hk]
        simp [save_checkpoint, List.getLast?_concat]
      · rw [if_neg hk]
        exact ih (i + 1) _

/-- The loop re-raises exactly when an unrecoverable error fires within
the remaining batches; interruption never re-raises. -/
theorem scrapeLoop_raised (o : Nat → FetchOutcome) (now : String)
    (e bsz sev : Nat) (sig : Signal) :
    ∀ (starts : List Nat) (i : Nat) (st : RunState),
      (scrapeLoop o now e bsz sev sig starts i st).raised
        = raisesIn sig i starts.length := by
  intro starts
  induction starts with
  | nil =>
    intro i st
    cases sig with
    | noSignal => rfl
    | interruptAfter k => rfl
    | errorAfter k =>
      simp only [scrapeLoop, raisesIn, List.length_nil]
      rw [decide_eq_false (by omega)]
  | cons bs rest ih =>
    intro i st
    cases sig with
    | noSignal =>
      unfold scrapeLoop
      dsimp only
      rw [ih (i + 1) _]
      rfl
    | interruptAfter k =>
      unfold scrapeLoop
      dsimp only
      by_cases hk : k = i
      · rw [if_pos hk]
        rfl
      · rw [if_neg hk]
        rw [ih (i + 1) _]
        rfl
    | errorAfter k =>
      unfold scrapeLoop
      dsimp only
      by_cases hk : k = i
      · rw [if_pos hk]
        simp only [raisesIn, List.length_cons]
        rw [decide_eq_true (by omega)]
      · rw [if_neg hk]
        rw [ih (i + 1) _]
        simp only [raisesIn, List.length_cons]
        apply decide_eq_decide.mpr
        omega

/-! ## Semaphore lemmas -/

theorem countP_set_acquire :
    ∀ (l : List TaskPhase) (i : Nat), l.get? i = some .pending →
      (l.set i .inFlight).countP (· == TaskPhase.inFlight)
        = l.countP (· == TaskPhase.inFlight) + 1 := by
  intro l
  induction l with
  | nil => intro i h; simp at h
  | cons a t ih =>
    intro i h
    cases i with
    | zero =>
      simp only [List.get?] at h
      injection h with h
      subst h
      simp [List.set, List.countP_cons]
    | succ n =>
      simp only [List.get?] at h
      simp only [List.set, List.countP_cons, ih n h]
      omega

theorem countP_set_release :
    ∀ (l : List TaskPhase) (i : Nat), l.get? i = some .inFlight →
      (l.set i .finished).countP (· == TaskPhase.inFlight) + 1
        = l.countP (· == TaskPhase.inFlight) := by
  intro l
  induction l with
  | nil => intro i h; simp at h
  | cons a t ih =>
    intro i h
    cases i with
    | zero =>
      simp only [List.get?] at h
      injection h with h
      subst h
      simp [List.set, List.countP_cons]
    | succ n =>
      simp only [List.get?] at h
      simp only [List.set, List.countP_cons, ← ih n h]
      omega

/-- The permit-accounting invariant: every enabled event preserves the
sum of outstanding fetches and available permits. -/
theorem runSemSteps_invariant :
    ∀ (steps : List SemStep) (st st' : SemState),
      runSemSteps st steps = some st' →
      inFlightCount st' + st'.avail = inFlightCount st + st.avail := by
  intro steps
  induction steps with
  | nil =>
    intro st st' h
    simp only [runSemSteps] at h
    injection h with h
    subst h
    rfl
  | cons e es ih =>
    intro st st' h
    simp only [runSemSteps] at h
    cases ha : applySemStep st e with
    | none => rw [ha] at h; simp at h
    | some st1 =>
      rw [ha] at h
      have key : inFlightCount st1 + st1.avail = inFlightCount st + st.avail := by
        cases e with
        | acquire i =>
          simp only [applySemStep] at ha
          cases hg : st.tasks.get? i with
          | none => rw [hg] at ha; simp at ha
          | some ph =>
            rw [hg] at ha
            cases ph with
            | pending =>
              by_cases hav : 0 < st.avail
              · rw [if_pos hav] at ha
                injection ha with ha
                subst ha
                simp only [inFlightCount]
                rw [countP_set_acquire st.tasks i hg]
                omega
              · rw [if_neg hav] at ha; simp at ha
            | inFlight => simp at ha
            | finished => simp at ha
        | release i =>
          simp only [applySemStep] at ha
          cases hg : st.tasks.get? i with
          | none => rw [hg] at ha; simp at ha
          | some ph =>
            rw [hg] at ha
            cases ph with
            | pending => simp at ha
            | inFlight =>
              injection ha with ha
              subst ha
              simp only [inFlightCount]
              have := countP_set_release st.tasks i hg
              omega
            | finished => simp at ha
      rw [ih st1 st' h, key]

/-! ## Claim theorems -/

/-- C2: for every input string, `validate_phone` computes exactly the
specified algorithm — strip non-digits, take the last 9 digits, reject
on fewer than 9 digits, on a prefix outside the allow-list, or on a
third digit of 0 or 1, else return the 9 digits unchanged — and it is
a total function (never throws); the five concrete examples of the
specification hold. -/
theorem C2_validate_phone_follows_spec :
    (∀ s : String, validate_phone s = validate_phone_spec s) ∧
    validate_phone "994505551234" = some "505551234" ∧
    validate_phone "0505551234" = some "505551234" ∧
    validate_phone "994405551234" = none ∧
    validate_phone "994500551234" = none ∧
    validate_phone "50555123" = none :=
  ⟨validate_phone_eq_spec, by decide, by decide, by decide, by decide, by decide⟩

/-- C5: saving a checkpoint and loading it back yields exactly the
records and statistics that were saved, and re-saving the loaded data
at any other timestamp reproduces an artifact whose `results` and
`stats` fields are identical to the original's — it can differ only in
`timestamp`. -/
theorem C5_save_load_roundtrip (recs : List Record) (st : Stats) (t t2 : String)
    (cur_r : List Record) (cur_s : Stats) :
    load_checkpoint (some (checkpointJson recs st t)) cur_r cur_s = (recs, st, true) ∧
    jsonGet (checkpointJson recs st t2) "results" Json.null
      = jsonGet (checkpointJson recs st t) "results" Json.null ∧
    jsonGet (checkpointJson recs st t2) "stats" Json.null
      = jsonGet (checkpointJson recs st t) "stats" Json.null :=
  ⟨load_checkpoint_save recs st t cur_r cur_s, rfl, rfl⟩

/-- C10: if the name heading is found with nonempty text but no
ancestor div carries the `p-2` class, `parse_user_data` returns no
record and leaves the statistics (in particular `no_phone` and
`invalid_phone`) untouched — even if a phone-shaped substring occurs
on the page. -/
theorem C10_no_user_div_no_record (page : Dom) (uid : Nat) (now : String)
    (s : Stats) (nt : Node) (anc : List Node)
    (h1 : findNameTag page [] = some (nt, anc))
    (h2 : nodeTextStrip nt ≠ "")
    (h3 : anc.find? isUserDiv = none) :
    parse_user_data page uid now s = (none, s) := by
  unfold parse_user_data
  rw [h1]
  dsimp only
  rw [if_neg h2, h3]

/-- C10 witness: a concrete page whose heading sits in a `card` div
(no `p-2` class) and which contains a phone-shaped substring parses to
no record with unchanged statistics. -/
theorem C10_no_user_div_no_record_witness :
    parse_user_data noUserDivPage 1 "T" (initStats 1) = (none, initStats 1) :=
  C10_no_user_div_no_record noUserDivPage 1 "T" (initStats 1)
    ⟨"h2", ["pb-0"], Dom.textNode "UserA" Dom.nilNode⟩
    [⟨"div", ["card"],
      Dom.elemNode "h2" ["pb-0"] (Dom.textNode "UserA" Dom.nilNode)
        (Dom.textNode " (050) 555 12 34" Dom.nilNode)⟩]
    (by decide) (by decide) (by decide)

/-- C9: in every schedule of acquire/release events the semaphore
admits, at no instant are more than `max_concurrent` fetches
outstanding: each `fetch_user` holds a permit for the duration of its
request, and the permit accounting bounds the in-flight count. -/
theorem C9_concurrency_bound (max_concurrent n : Nat) (steps : List SemStep)
    (st' : SemState)
    (h : runSemSteps (initSemState max_concurrent n) steps = some st') :
    inFlightCount st' ≤ max_concurrent := by
  have hinv := runSemSteps_invariant steps _ st' h
  have h0 : inFlightCount (initSemState max_concurrent n) = 0 := by
    simp [inFlightCount, initSemState, List.countP_replicate]
  have havail : (initSemState max_concurrent n).avail = max_concurrent := rfl
  omega

/-- C9 witness: with 2 permits and 3 tasks, after the only admissible
kind of schedule the in-flight count stays within the cap. -/
theorem C9_concurrency_bound_witness :
    inFlightCount ⟨0, [TaskPhase.finished, TaskPhase.inFlight, TaskPhase.inFlight]⟩ ≤ 2 :=
  C9_concurrency_bound 2 3
    [SemStep.acquire 0, SemStep.acquire 1, SemStep.release 0, SemStep.acquire 2]
    ⟨0, [TaskPhase.finished, TaskPhase.inFlight, TaskPhase.inFlight]⟩ (by decide)

/-- C4: `save_checkpoint` truncates the checkpoint file in place
(`open(..., 'w')`) before writing, so a crash immediately after the
truncation exposes an empty file: a reachable intermediate state that
is neither the previous snapshot nor the new one and that `json.load`
cannot parse — refuting the claimed all-or-nothing visibility.  The
spec's requirement is the intent; the in-place write is the slip. -/
theorem C4_save_not_atomic :
    FileState.emptyFile ∈ saveFileStates (checkpointJson [] (initStats 1) "T1") ∧
    parseFile FileState.emptyFile = none ∧
    FileState.emptyFile ≠ FileState.fullDoc (checkpointJson [] (initStats 1) "T0") ∧
    FileState.emptyFile ≠ FileState.fullDoc (checkpointJson [] (initStats 1) "T1") :=
  ⟨by simp [saveFileStates], rfl,
   fun h => FileState.noConfusion h, fun h => FileState.noConfusion h⟩

/-- C6 counterexample: in a two-id batch whose completion schedule
finishes id 2 before id 1, the gathered record list is still
`[1, 2]` — `asyncio.gather` returns results in task order, so the
lower id never appears after the higher one. -/
theorem C6_completion_order_counterexample :
    ((scrape_batch (fun _ => FetchOutcome.success mockPage) "T" [1, 2] [2, 1]
        (initStats 1)).1.map Record.user_id) = [1, 2] := by decide

/-- C6 amended: whatever the completion schedule, the ids of the
records `scrape_batch` returns form a sublist of the dispatched batch
ids in dispatch (ascending id) order — insertion order is task order,
not completion order. -/
theorem C6_results_in_task_order (o : Nat → FetchOutcome) (now : String)
    (ids sched : List Nat) (s : Stats) :
    (((scrape_batch o now ids sched s).1).map Record.user_id).Sublist ids := by
  unfold scrape_batch
  dsimp only
  apply filterMap_user_id_sublist
  intro uid r h
  exact scrape_batch_slot o now sched s uid r h

/-- C7 counterexample: on a timeout, `fetch_user` does not increment
`total_processed` (the increment sits inside the response block), so
`totalProcessed` does not grow by one for every attempted id. -/
theorem C7_timeout_counterexample :
    ¬ ((fetch_user (fun _ => FetchOutcome.timeout) "T" 1 (initStats 1)).2.total_processed
        = (initStats 1).total_processed + 1) := by decide

/-- C7 amended: handling an attempted id updates the statistics exactly
once: `total_processed` grows by one exactly when an HTTP response
(of any status) arrived — on timeout or transport error it is
unchanged — `failed` grows by one exactly when no record was produced,
`successful` and `valid_users` grow by one exactly when one was, and
the batch result set receives the record if and only if the pipeline
produced one. -/
theorem C7_stats_per_outcome (o : Nat → FetchOutcome) (now : String)
    (uid : Nat) (s : Stats) :
    (fetch_user o now uid s).2.total_processed
      = s.total_processed + (if isHttpResponse (o uid) then 1 else 0) ∧
    (fetch_user o now uid s).2.failed
      = s.failed + (if (fetch_user o now uid s).1 = none then 1 else 0) ∧
    (fetch_user o now uid s).2.successful
      = s.successful + (if (fetch_user o now uid s).1 = none then 0 else 1) ∧
    (fetch_user o now uid s).2.valid_users
      = s.valid_users + (if (fetch_user o now uid s).1 = none then 0 else 1) ∧
    (scrape_batch o now [uid] [uid] s).1 = ((fetch_user o now uid s).1).toList := by
  have hsb : (scrape_batch o now [uid] [uid] s).1 = ((fetch_user o now uid s).1).toList := by
    rw [scrape_batch_fst o now [uid] s s]
    cases hf : (fetch_user o now uid s).1 <;> simp [List.filterMap_cons, hf]
  refine ⟨?_, ?_, ?_, ?_, hsb⟩ <;>
  · cases ho : o uid with
    | success body =>
      have heff := parse_user_data_stats_effect body uid now
        { s with total_processed := s.total_processed + 1 }
      cases hp : parse_user_data body uid now
          { s with total_processed := s.total_processed + 1 } with
      | mk ro s2 =>
        rw [hp] at heff
        dsimp only at heff
        cases ro with
        | some r =>
          have hfu : fetch_user o now uid s
              = (some r, { s2 with successful := s2.successful + 1
                                   valid_users := s2.valid_users + 1
                                   last_processed_id := (uid : Int) }) := by
            unfold fetch_user
            rw [ho]
            dsimp only
            rw [hp]
          rw [hfu]
          simp [ho, isHttpResponse, heff.1, heff.2.1, heff.2.2.1, heff.2.2.2.1]
        | none =>
          have hfu : fetch_user o now uid s
              = (none, { s2 with failed := s2.failed + 1
                                 last_processed_id := (uid : Int) }) := by
            unfold fetch_user
            rw [ho]
            dsimp only
            rw [hp]
          rw [hfu]
          simp [ho, isHttpResponse, heff.1, heff.2.1, heff.2.2.1, heff.2.2.2.1]
    | httpError status =>
      have hfu : fetch_user o now uid s
          = (none, { s with total_processed := s.total_processed + 1
                            failed := s.failed + 1
                            last_processed_id := (uid : Int) }) := by
        unfold fetch_user
        rw [ho]
      rw [hfu]
      simp [ho, isHttpResponse]
    | timeout =>
      have hfu : fetch_user o now uid s
          = (none, { s with failed := s.failed + 1
                            last_processed_id := (uid : Int) }) := by
        unfold fetch_user
        rw [ho]
      rw [hfu]
      simp [ho, isHttpResponse]
    | netError =>
      have hfu : fetch_user o now uid s
          = (none, { s with failed := s.failed + 1
                            last_processed_id := (uid : Int) }) := by
        unfold fetch_user
        rw [ho]
      rw [hfu]
      simp [ho, isHttpResponse]

/-- C3 counterexample: in the end-to-end scenario (`startId=1`,
`endId=10`, `batchSize=5`, `saveEvery=5`, valid pages for ids
1,3,5,7,9 and HTTP 404 for the rest) the run does not perform exactly
two checkpoint saves: the threshold is crossed after batch 2 as well
(`10 - 5 >= 5`), so a threshold save precedes the final save. -/
theorem C3_two_saves_counterexample :
    ¬ ((scrape_all c3oracle "T" 1 10 5 5 none Signal.noSignal).final.saves.length = 2) := by
  decide

/-- C3 amended: the scenario ends with exactly 5 records (ids
1,3,5,7,9), `failed = 5`, and exactly three checkpoint saves — a
threshold save after each of the two batches plus the unconditional
final save. -/
theorem C3_scenario :
    (scrape_all c3oracle "T" 1 10 5 5 none Signal.noSignal).final.results.length = 5 ∧
    (scrape_all c3oracle "T" 1 10 5 5 none Signal.noSignal).final.stats.failed = 5 ∧
    (scrape_all c3oracle "T" 1 10 5 5 none Signal.noSignal).final.saves.length = 3 ∧
    (scrape_all c3oracle "T" 1 10 5 5 none Signal.noSignal).final.results.map
      Record.user_id = [1, 3, 5, 7, 9] ∧
    (scrape_all c3oracle "T" 1 10 5 5 none Signal.noSignal).final.stats.total_processed
      = 10 := by
  refine ⟨by decide, by decide, by decide, by decide, by decide⟩

/-- C8: on every exit path — normal completion, interruption after any
batch, or an unrecoverable error after any batch — the last checkpoint
written is a snapshot of the final results and statistics (a final
save always happens before exit), and the run re-raises exactly when
an unrecoverable error fired: interruption always exits cleanly. -/
theorem C8_final_save_on_every_exit (o : Nat → FetchOutcome) (now : String)
    (start_id end_id batch_size save_every : Nat) (artifact : Option Json)
    (sig : Signal) :
    (scrape_all o now start_id end_id batch_size save_every artifact sig).final.saves.getLast?
      = some (checkpointJson
          (scrape_all o now start_id end_id batch_size save_every artifact sig).final.results
          (scrape_all o now start_id end_id batch_size save_every artifact sig).final.stats
          now) ∧
    (scrape_all o now start_id end_id batch_size save_every artifact sig).raised
      = raisesIn sig 0
          (pyRange (resumeStart start_id
              (load_checkpoint artifact [] (initStats start_id)).2.1)
            (end_id + 1) batch_size).length := by
  rcases hl : load_checkpoint artifact [] (initStats start_id) with ⟨r0, s0, b0⟩
  unfold scrape_all
  rw [hl]
  dsimp only
  constructor
  · exact scrapeLoop_last_save o now end_id batch_size save_every sig _ 0 _
  · exact scrapeLoop_raised o now end_id batch_size save_every sig _ 0 _

/-- C1: resuming from a checkpoint whose cursor records that all ids up
to `N` were attempted (`start_id <= N < end_id`) and whose records
cover exactly the ids `1..N`, the run computes the resume point as
`last_processed_id + 1`, dispatches exactly the ids `N+1 .. end_id`,
each exactly once, and the final record set contains no duplicate
ids. -/
theorem C1_resume_correctness (o : Nat → FetchOutcome) (now ts : String)
    (start_id end_id batch_size save_every N : Nat)
    (rec0 : List Record) (st0 : Stats)
    (hbs : 1 ≤ batch_size)
    (hsN : start_id ≤ N) (hNe : N < end_id)
    (hcur : st0.last_processed_id = (N : Int))
    (hcov : (rec0.map Record.user_id).Perm (List.range' 1 N)) :
    resumeStart start_id st0 = N + 1 ∧
    (scrape_all o now start_id end_id batch_size save_every
        (some (checkpointJson rec0 st0 ts)) .noSignal).final.attempted
      = List.range' (N + 1) (end_id - N) ∧
    (scrape_all o now start_id end_id batch_size save_every
        (some (checkpointJson rec0 st0 ts)) .noSignal).final.attempted.Nodup ∧
    ((scrape_all o now start_id end_id batch_size save_every
        (some (checkpointJson rec0 st0 ts)) .noSignal).final.results.map
        Record.user_id).Nodup := by
  have hres : resumeStart start_id st0 = N + 1 := by
    unfold resumeStart
    rw [hcur]
    have hgt : (N : Int) + 1 > (start_id : Int) := by
      have h1 : (start_id : Int) ≤ (N : Int) := by exact_mod_cast hsN
      omega
    rw [if_pos hgt]
    omega
  have hload := load_checkpoint_save rec0 st0 ts [] (initStats start_id)
  have hrun : scrape_all o now start_id end_id batch_size save_every
      (some (checkpointJson rec0 st0 ts)) .noSignal
      = scrapeLoop o now end_id batch_size save_every .noSignal
          (pyRange (N + 1) (end_id + 1) batch_size) 0
          { results := rec0, stats := st0, saves := [], attempted := []
            last_save_count := st0.total_processed } := by
    unfold scrape_all
    rw [hload]
    dsimp only
    rw [hres]
  have hcat : (pyRange (N + 1) (end_id + 1) batch_size).flatMap
      (fun bs => batchIds bs batch_size end_id)
      = List.range' (N + 1) (end_id - N) := by
    unfold pyRange
    rw [pyRangeAux_bind_batchIds batch_size end_id hbs
      (end_id + 1 - (N + 1)) (N + 1) (le_refl _)]
    congr 1
    omega
  have hloop := scrapeLoop_noSignal o now end_id batch_size save_every st0
    (pyRange (N + 1) (end_id + 1) batch_size) 0
    { results := rec0, stats := st0, saves := [], attempted := []
      last_save_count := st0.total_processed }
  have hrangeNodup : (List.range' (N + 1) (end_id - N)).Nodup :=
    List.nodup_range' (N + 1) (end_id - N) 1 (by omega)
  refine ⟨hres, ?_, ?_, ?_⟩
  · rw [hrun, hloop.2, hcat]
    exact List.nil_append _
  · rw [hrun, hloop.2, hcat, List.nil_append]
    exact hrangeNodup
  · rw [hrun, hloop.1, hcat]
    dsimp only
    rw [List.map_append, List.nodup_append]
    have hfid : ∀ uid r, (fetch_user o now uid st0).1 = some r → r.user_id = uid :=
      fun uid r h => fetch_user_user_id o now uid st0 r h
    have hsub := filterMap_user_id_sublist _ hfid (List.range' (N + 1) (end_id - N))
    refine ⟨hcov.symm.nodup (List.nodup_range' 1 N 1 (by omega)), ?_, ?_⟩
    · exact hrangeNodup.sublist hsub
    · intro x hx hx2
      have h1 : x ∈ List.range' 1 N := hcov.mem_iff.mp hx
      have h2 : x ∈ List.range' (N + 1) (end_id - N) := hsub.subset hx2
      rw [List.mem_range'_1] at h1 h2
      omega

/-- C1 witness: a concrete checkpoint covering ids 1..2 with cursor 2,
resumed over the range 1..4 — batches dispatch exactly ids 3 and 4 and
the final record ids stay duplicate-free. -/
theorem C1_resume_correctness_witness :
    resumeStart 1 (⟨2, 2, 0, 0, 0, 2, 2⟩ : Stats) = 2 + 1 ∧
    (scrape_all (fun _ => FetchOutcome.httpError 404) "T" 1 4 2 10
        (some (checkpointJson
          [⟨1, "A", "505551234", none, none, none, "u1", "t1"⟩,
           ⟨2, "B", "515551234", none, none, none, "u2", "t2"⟩]
          (⟨2, 2, 0, 0, 0, 2, 2⟩ : Stats) "T0")) .noSignal).final.attempted
      = List.range' (2 + 1) (4 - 2) ∧
    (scrape_all (fun _ => FetchOutcome.httpError 404) "T" 1 4 2 10
        (some (checkpointJson
          [⟨1, "A", "505551234", none, none, none, "u1", "t1"⟩,
           ⟨2, "B", "515551234", none, none, none, "u2", "t2"⟩]
          (⟨2, 2, 0, 0, 0, 2, 2⟩ : Stats) "T0")) .noSignal).final.attempted.Nodup ∧
    ((scrape_all (fun _ => FetchOutcome.httpError 404) "T" 1 4 2 10
        (some (checkpointJson
          [⟨1, "A", "505551234", none, none, none, "u1", "t1"⟩,
           ⟨2, "B", "515551234", none, none, none, "u2", "t2"⟩]
          (⟨2, 2, 0, 0, 0, 2, 2⟩ : Stats) "T0")) .noSignal).final.results.map
        Record.user_id).Nodup :=
  C1_resume_correctness (fun _ => FetchOutcome.httpError 404) "T" "T0" 1 4 2 10 2
    [⟨1, "A", "505551234", none, none, none, "u1", "t1"⟩,
     ⟨2, "B", "515551234", none, none, none, "u2", "t2"⟩]
    (⟨2, 2, 0, 0, 0, 2, 2⟩ : Stats)
    (by decide) (by decide) (by decide) (by decide) (by decide)

end Mojo
